import Mathlib

/-!
Verification development for the nanokvm-usb host tool: a shallow embedding of
its wire-protocol framing layer (`CmdPacket`), info-payload decoding
(`InfoPacket`) and the device-command operations (`NanoKVM.*`), together with
theorems about the properties the layer is expected to satisfy.

Bytes travelling through the code are modelled as `ℤ` (Python integers are
unbounded and some call sites pass negative values); a Python list is a
`List ℤ`.  A Python expression that can raise an exception is modelled with
`Option`: `none` is an uncaught exception, `some` a normal return.
-/

namespace NanoKVMUSB

/-! ## Python semantics helpers -/

/-- Python list indexing `l[i]`: a nonnegative index reads from the front, a
negative index wraps from the back, and anything out of range raises
`IndexError` (modelled as `none`). -/
def pyGet (l : List ℤ) (i : ℤ) : Option ℤ :=
  if 0 ≤ i then
    if i < (l.length : ℤ) then l.get? i.toNat else none
  else
    if 0 ≤ (l.length : ℤ) + i then l.get? ((l.length : ℤ) + i).toNat else none

/-- Clamp one slice endpoint the way Python does: negative endpoints count
from the back, and everything is clamped into `[0, n]`. -/
def pyBound (n : ℕ) (i : ℤ) : ℕ :=
  if i < 0 then ((n : ℤ) + i).toNat else min i.toNat n

/-- Python slicing `l[a:b]` (step 1): never raises, clamps both endpoints. -/
def pySlice (l : List ℤ) (a b : ℤ) : List ℤ :=
  (l.take (pyBound l.length b)).drop (pyBound l.length a)

/-- Python `bytes(l)`: succeeds exactly when every element is in `0..255`,
otherwise raises `ValueError` (modelled as `none`). -/
def pyBytes (l : List ℤ) : Option (List ℤ) :=
  if l.all (fun b => decide (0 ≤ b ∧ b < 256)) then some l else none

/-! ## ByteCodec helpers (`get_bit`, `int_to_byte`, `int_to_little_endian_list`) -/

/-- `get_bit(value, bit) = (value >> bit) & 1`.  Python's arithmetic right
shift on `int` is floor division by a power of two, and `& 1` of any integer
is its nonnegative residue mod 2. -/
def get_bit (value : ℤ) (bit : ℕ) : ℤ :=
  (value.fdiv (2 ^ bit)).emod 2

/-- `int_to_byte(value) = value & 0xFF`: the nonnegative residue mod 256. -/
def int_to_byte (value : ℤ) : ℤ :=
  value.emod 256

/-- `int_to_little_endian_list(value, length)`:
`[(value >> (8*i)) & 0xFF for i in range(length)]`. -/
def int_to_little_endian_list (value : ℤ) (length : ℕ) : List ℤ :=
  (List.range length).map (fun i => (value.fdiv (2 ^ (8 * i))).emod 256)

/-! ## Command codes (`CmdEvent`) -/

def CmdEvent.GET_INFO : ℤ := 0x01
def CmdEvent.SEND_KB_GENERAL_DATA : ℤ := 0x02
def CmdEvent.SEND_KB_MEDIA_DATA : ℤ := 0x03
def CmdEvent.SEND_MS_ABS_DATA : ℤ := 0x04
def CmdEvent.SEND_MS_REL_DATA : ℤ := 0x05

/-! ## CmdPacket -/

def HEAD1 : ℤ := 0x57
def HEAD2 : ℤ := 0xAB

/-- The field state of a `CmdPacket` object. -/
structure CmdPacket where
  ADDR : ℤ
  CMD : ℤ
  LEN : ℤ
  DATA : List ℤ
  SUM : ℤ
deriving DecidableEq

/-- The all-zero field state `CmdPacket.__init__` starts from; decoding a bad
buffer leaves the packet here. -/
def CmdPacket.zero : CmdPacket :=
  { ADDR := 0, CMD := 0, LEN := 0, DATA := [], SUM := 0 }

/-- `CmdPacket._save`: store address, command and a copy of the payload, set
`LEN` to the payload length and `SUM` to the mod-256 checksum over header,
address, command, length and payload. -/
def CmdPacket.save (addr cmd : ℤ) (data : List ℤ) : CmdPacket :=
  { ADDR := addr, CMD := cmd, LEN := (data.length : ℤ), DATA := data,
    SUM := (HEAD1 + HEAD2 + addr + cmd + (data.length : ℤ) + data.sum).emod 256 }

/-- `CmdPacket.encode`: `[HEAD1, HEAD2, ADDR, CMD, LEN, *DATA, SUM]`. -/
def CmdPacket.encode (p : CmdPacket) : List ℤ :=
  [HEAD1, HEAD2, p.ADDR, p.CMD, p.LEN] ++ p.DATA ++ [p.SUM]

/-- `CmdPacket._find_head`: index of the first adjacent `[HEAD1, HEAD2]` pair.
The Python loop runs `i` over `range(len(lst) - 1)` and returns the first hit;
its `-1` sentinel is modelled as `none`. -/
def find_head (lst : List ℤ) : Option ℕ :=
  (List.range (lst.length - 1)).find? (fun i =>
    (lst.get? i == some HEAD1) && (lst.get? (i + 1) == some HEAD2))

/-- The decode failure branches of `CmdPacket.decode`, one constructor per
source branch: `headerNotFound` is the `"cannot find HEAD"` return,
`truncated` covers the three length-error returns (`len error1`, `len error2`
and the caught `IndexError` of `len error3`), and `checksumMismatch` is the
checksum comparison failure. -/
inductive DecodeError where
  | headerNotFound
  | truncated
  | checksumMismatch
deriving DecidableEq

/-- `CmdPacket.decode(raw)`: header scan, two length checks, checksum check,
then field extraction.  `none` models an uncaught Python exception (the
unguarded index reads `raw[hi+2]`, `raw[hi+3]`, `raw[hi+4]`); the read of
`raw[hi + 5 + data_len]` sits in a `try/except IndexError` that returns the
`len error3` failure, hence maps to `truncated`. -/
def decode (raw : List ℤ) : Option (Except DecodeError CmdPacket) :=
  match find_head raw with
  | none => some (Except.error DecodeError.headerNotFound)
  | some hi =>
    if (raw.length : ℤ) - (hi : ℤ) < 6 then
      some (Except.error DecodeError.truncated)
    else
      match pyGet raw ((hi : ℤ) + 2), pyGet raw ((hi : ℤ) + 3), pyGet raw ((hi : ℤ) + 4) with
      | some addr, some cmd, some data_len =>
        if (raw.length : ℤ) < (hi : ℤ) + 5 + data_len + 1 then
          some (Except.error DecodeError.truncated)
        else
          match pyGet raw ((hi : ℤ) + 5 + data_len) with
          | none => some (Except.error DecodeError.truncated)
          | some summ =>
            if (pySlice raw (hi : ℤ) ((hi : ℤ) + 5 + data_len)).sum.emod 256 ≠ summ then
              some (Except.error DecodeError.checksumMismatch)
            else
              some (Except.ok
                { ADDR := addr, CMD := cmd, LEN := data_len,
                  DATA := pySlice raw ((hi : ℤ) + 5) ((hi : ℤ) + 5 + data_len),
                  SUM := summ })
      | _, _, _ => none

/-- `CmdPacket(-1, -1, raw)`: construct with zeroed fields, then run
`decode raw`, which assigns the fields only on success and leaves the zero
state on any failure.  `none` propagates a decode crash. -/
def CmdPacket.fromRaw (raw : List ℤ) : Option CmdPacket :=
  match decode raw with
  | none => none
  | some (Except.ok p) => some p
  | some (Except.error _) => some CmdPacket.zero

/-! ## InfoPacket -/

/-- The fields of a decoded `InfoPacket`. -/
structure InfoPacket where
  CHIP_VERSION : String
  IS_CONNECTED : Bool
  NUM_LOCK : Bool
  CAPS_LOCK : Bool
  SCROLL_LOCK : Bool
deriving DecidableEq

/-- The chip-version string `f"V{1.0 + (b - 0x30)/10.0:.1f}"`, rendered by
exact decimal arithmetic on the tenths value `10 + (b - 0x30)`; for the
version values the device can report this agrees with the float formatting of
the source. -/
def chip_version_string (b : ℤ) : String :=
  let tenths := 10 + (b - 0x30)
  "V" ++ toString (tenths / 10) ++ "." ++ toString (tenths % 10)

/-- `InfoPacket.__init__(data)`: raises `ValueError("version error")` (the
`Except.error ()` result) when `data[0] < 0x30`, otherwise derives the chip
version from `data[0]`, the connection flag from `data[1]` and the three lock
bits from `data[2]`.  `none` models an uncaught `IndexError` when `data` is
too short. -/
def InfoPacket.parse (data : List ℤ) : Option (Except Unit InfoPacket) :=
  match pyGet data 0 with
  | none => none
  | some b0 =>
    if b0 < 0x30 then some (Except.error ())
    else
      match pyGet data 1, pyGet data 2 with
      | some b1, some b2 =>
        some (Except.ok
          { CHIP_VERSION := chip_version_string b0,
            IS_CONNECTED := decide (b1 ≠ 0),
            NUM_LOCK := decide (get_bit b2 0 = 1),
            CAPS_LOCK := decide (get_bit b2 1 = 1),
            SCROLL_LOCK := decide (get_bit b2 2 = 1) })
      | _, _ => none

/-! ## NanoKVM device operations

Each operation is modelled by the byte list it builds (`..._packet`) and, for
`get_info`, by the processing applied to the raw response bytes.  The lock and
transport interactions of each method are transcribed separately as action
traces for the concurrency analysis. -/

namespace NanoKVM

/-- The coordinate rescaling of `send_mouse_absolute_data`:
`0 if size == 0 else (coord * 4096) // size`, with Python's floor division. -/
def abs_coord (coord size : ℤ) : ℤ :=
  if size = 0 then 0 else (coord * 4096).fdiv size

/-- The packet built by `send_hid_report(data)`:
`CmdPacket(addr, SEND_KB_GENERAL_DATA, data[:8]).encode()`. -/
def send_hid_report_packet (addr : ℤ) (data : List ℤ) : List ℤ :=
  (CmdPacket.save addr CmdEvent.SEND_KB_GENERAL_DATA (pySlice data 0 8)).encode

/-- The report list built by `send_keyboard_data(modifier, key)`. -/
def send_keyboard_data_report (modifier key : ℤ) : List ℤ :=
  [modifier, 0x00, 0x00, 0x00, key, 0x00, 0x00, 0x00]

/-- The packet built by `send_mouse_relative_data(key, x, y, scroll)`: payload
`[0x01, key, int_to_byte(x), int_to_byte(y), scroll]` under command
`SEND_MS_REL_DATA`. -/
def send_mouse_relative_packet (addr key x y scroll : ℤ) : List ℤ :=
  (CmdPacket.save addr CmdEvent.SEND_MS_REL_DATA
    [0x01, key, int_to_byte x, int_to_byte y, scroll]).encode

/-- The packet built by `send_mouse_absolute_data(key, width, height, x, y,
scroll)`: payload `[0x02, key, *x_le, *y_le, scroll]` with the two scaled
coordinates in 2-byte little-endian form, under command `SEND_MS_ABS_DATA`. -/
def send_mouse_absolute_packet (addr key width height x y scroll : ℤ) : List ℤ :=
  (CmdPacket.save addr CmdEvent.SEND_MS_ABS_DATA
    ([0x02, key] ++ int_to_little_endian_list (abs_coord x width) 2
      ++ int_to_little_endian_list (abs_coord y height) 2 ++ [scroll])).encode

/-- What `get_info` does with the raw response bytes it read: it builds
`CmdPacket(-1, -1, list(raw))` (whose `decode` return code it never checks —
the packet keeps the zero state on any decode failure) and feeds that
packet's `DATA` to `InfoPacket`.  `none` models an uncaught exception
reaching `get_info`'s caller. -/
def get_info_response (raw : List ℤ) : Option (Except Unit InfoPacket) :=
  match CmdPacket.fromRaw raw with
  | none => none
  | some rsp => InfoPacket.parse rsp.DATA

/-- The lock and transport actions a `NanoKVM` method can perform. -/
inductive Action where
  | acquireLock
  | releaseLock
  | write
  | read
deriving DecidableEq

/-- The lock/transport actions of `get_info`, in source order: one
`serial_port.write`, one `serial_port.read(14)`; `self._write_lock` is never
touched. -/
def get_info_actions : List Action := [Action.write, Action.read]

/-- The lock/transport actions of `send_hid_report` (and through it
`send_keyboard_data`): a single `serial_port.write`. -/
def send_hid_report_actions : List Action := [Action.write]

/-- The lock/transport actions of `send_mouse_relative_data`: a single
`serial_port.write`. -/
def send_mouse_relative_actions : List Action := [Action.write]

/-- The lock/transport actions of `send_mouse_absolute_data`: a single
`serial_port.write`. -/
def send_mouse_absolute_actions : List Action := [Action.write]

end NanoKVM

/-! ## Helper lemmas -/

lemma pyGet_ofNat (l : List ℤ) (n : ℕ) (h : n < l.length) :
    pyGet l (n : ℤ) = l.get? n := by
  have h0 : (0 : ℤ) ≤ (n : ℤ) := Int.ofNat_nonneg n
  have h1 : (n : ℤ) < (l.length : ℤ) := by exact_mod_cast h
  simp [pyGet, h0, h1]

lemma find_head_cons (l : List ℤ) : find_head (HEAD1 :: HEAD2 :: l) = some 0 := by
  unfold find_head
  have hlen : (HEAD1 :: HEAD2 :: l).length - 1 = l.length + 1 := by simp
  rw [hlen, List.range_succ_eq_map, List.find?_cons_of_pos]
  simp [HEAD1, HEAD2]

lemma pyBound_nonneg (n : Nat) (i : Int) (h : 0 <= i) : pyBound n i = min i.toNat n := by
  unfold pyBound
  rw [if_neg (by omega)]

lemma encode_save_eq (addr cmd : Int) (payload : List Int) :
    (CmdPacket.save addr cmd payload).encode =
      HEAD1 :: HEAD2 :: addr :: cmd :: (payload.length : Int) ::
        (payload ++ [(HEAD1 + HEAD2 + addr + cmd + (payload.length : Int) + payload.sum).emod 256]) := by
  simp [CmdPacket.encode, CmdPacket.save]

lemma decode_save_encode (addr cmd : Int) (payload : List Int) :
    decode ((CmdPacket.save addr cmd payload).encode) =
      some (Except.ok (CmdPacket.save addr cmd payload)) := by
  set S := (HEAD1 + HEAD2 + addr + cmd + (payload.length : Int) + payload.sum).emod 256 with hS
  set raw := (CmdPacket.save addr cmd payload).encode with hraw
  have hshape : raw = HEAD1 :: HEAD2 :: addr :: cmd :: (payload.length : Int) :: (payload ++ [S]) := by
    rw [hraw, encode_save_eq]
  have hshape2 : raw = ([HEAD1, HEAD2, addr, cmd, (payload.length : Int)] ++ payload) ++ [S] := by
    rw [hshape]; simp
  have hlen : raw.length = payload.length + 6 := by
    rw [hshape]; simp
  have hlen5 : ([HEAD1, HEAD2, addr, cmd, (payload.length : Int)] ++ payload).length = 5 + payload.length := by
    simp; omega
  have hfind : find_head raw = some 0 := by rw [hshape]; exact find_head_cons _
  have htake : raw.take (5 + payload.length) = [HEAD1, HEAD2, addr, cmd, (payload.length : Int)] ++ payload := by
    rw [hshape2]
    exact List.take_left' hlen5
  unfold decode
  rw [hfind]
  dsimp only
  have hc1 : ¬ ((raw.length : Int) - ((0 : Nat) : Int) < 6) := by
    rw [hlen]; push_cast; omega
  rw [if_neg hc1]
  have hg2 : pyGet raw (((0:Nat) : Int) + 2) = some addr := by
    have h : (((0:Nat) : Int) + 2) = ((2 : Nat) : Int) := by norm_num
    rw [h, pyGet_ofNat raw 2 (by omega)]
    rw [hshape]; rfl
  have hg3 : pyGet raw (((0:Nat) : Int) + 3) = some cmd := by
    have h : (((0:Nat) : Int) + 3) = ((3 : Nat) : Int) := by norm_num
    rw [h, pyGet_ofNat raw 3 (by omega)]
    rw [hshape]; rfl
  have hg4 : pyGet raw (((0:Nat) : Int) + 4) = some ((payload.length : Int)) := by
    have h : (((0:Nat) : Int) + 4) = ((4 : Nat) : Int) := by norm_num
    rw [h, pyGet_ofNat raw 4 (by omega)]
    rw [hshape]; rfl
  rw [hg2, hg3, hg4]
  dsimp only
  have hc2 : ¬ ((raw.length : Int) < ((0 : Nat) : Int) + 5 + (payload.length : Int) + 1) := by
    rw [hlen]; push_cast; omega
  rw [if_neg hc2]
  have hg5 : pyGet raw (((0:Nat) : Int) + 5 + (payload.length : Int)) = some S := by
    have h : (((0:Nat) : Int) + 5 + (payload.length : Int)) = ((5 + payload.length : Nat) : Int) := by
      push_cast; ring
    rw [h, pyGet_ofNat raw (5 + payload.length) (by omega), List.get?_eq_getElem?, hshape2]
    rw [List.getElem?_append_right (le_of_eq hlen5)]
    rw [hlen5]
    simp
  rw [hg5]
  dsimp only
  have hslice : pySlice raw (((0:Nat) : Int)) (((0:Nat) : Int) + 5 + (payload.length : Int)) =
      [HEAD1, HEAD2, addr, cmd, (payload.length : Int)] ++ payload := by
    unfold pySlice
    have hb1 : pyBound raw.length (((0:Nat) : Int)) = 0 := by
      unfold pyBound
      rw [if_neg (by omega)]
      simp
    have hb2 : pyBound raw.length (((0:Nat) : Int) + 5 + (payload.length : Int)) = 5 + payload.length := by
      rw [pyBound_nonneg _ _ (by omega), hlen]
      push_cast
      omega
    rw [hb1, hb2, List.drop_zero, htake]
  have hsum : ((pySlice raw (((0:Nat) : Int)) (((0:Nat) : Int) + 5 + (payload.length : Int))).sum).emod 256 = S := by
    rw [hslice, hS]
    congr 1
    simp [List.sum_append]
    ring
  rw [if_neg (by rw [hsum]; exact fun h => h rfl)]
  have hdata : pySlice raw (((0:Nat) : Int) + 5) (((0:Nat) : Int) + 5 + (payload.length : Int)) = payload := by
    unfold pySlice
    have hb1 : pyBound raw.length (((0:Nat) : Int) + 5) = 5 := by
      rw [pyBound_nonneg _ _ (by omega), hlen]
      push_cast
      omega
    have hb2 : pyBound raw.length (((0:Nat) : Int) + 5 + (payload.length : Int)) = 5 + payload.length := by
      rw [pyBound_nonneg _ _ (by omega), hlen]
      push_cast
      omega
    rw [hb1, hb2, htake]
    exact List.drop_left' (by simp)
  rw [hdata]
  simp [CmdPacket.save, hS]

lemma take_encode_save (addr cmd : Int) (payload : List Int) :
    ((CmdPacket.save addr cmd payload).encode).take (5 + payload.length) =
      [HEAD1, HEAD2, addr, cmd, (payload.length : Int)] ++ payload := by
  rw [encode_save_eq]
  have hshape : HEAD1 :: HEAD2 :: addr :: cmd :: (payload.length : Int) ::
      (payload ++ [(HEAD1 + HEAD2 + addr + cmd + (payload.length : Int) + payload.sum).emod 256]) =
      ([HEAD1, HEAD2, addr, cmd, (payload.length : Int)] ++ payload) ++
        [(HEAD1 + HEAD2 + addr + cmd + (payload.length : Int) + payload.sum).emod 256] := by
    simp
  rw [hshape]
  exact List.take_left' (by simp; omega)

/-! ## Claims -/

/-- Claim C1: for every address and command in 0..255 and every payload list of
bytes with length at most 255, decoding the byte list produced by
`encode(address, command, payload)` succeeds and yields exactly the original
address, command and payload, with the decoded checksum equal to the checksum
recomputed (mod 256) over the encoded bytes it covers. -/
theorem C1_decode_encode_round_trip (addr cmd : ℤ) (payload : List ℤ)
    (haddr : 0 ≤ addr ∧ addr ≤ 255) (hcmd : 0 ≤ cmd ∧ cmd ≤ 255)
    (hlen : payload.length ≤ 255) (hbytes : ∀ b ∈ payload, 0 ≤ b ∧ b ≤ 255) :
    ∃ p : CmdPacket,
      decode ((CmdPacket.save addr cmd payload).encode) = some (Except.ok p) ∧
      p.ADDR = addr ∧ p.CMD = cmd ∧ p.DATA = payload ∧ p.LEN = (payload.length : ℤ) ∧
      p.SUM = (((CmdPacket.save addr cmd payload).encode).take (5 + payload.length)).sum.emod 256 := by
  refine ⟨CmdPacket.save addr cmd payload, decode_save_encode addr cmd payload,
    rfl, rfl, rfl, rfl, ?_⟩
  rw [take_encode_save]
  show (HEAD1 + HEAD2 + addr + cmd + (payload.length : ℤ) + payload.sum).emod 256 = _
  congr 1
  simp [List.sum_append]
  ring

/-- Witness for C1 at `addr = 0`, `cmd = 1`, `payload = [0x20]`. -/
theorem C1_witness :
    ∃ p : CmdPacket,
      decode ((CmdPacket.save 0 1 [0x20]).encode) = some (Except.ok p) ∧
      p.ADDR = 0 ∧ p.CMD = 1 ∧ p.DATA = [0x20] ∧ p.LEN = (([(0x20 : ℤ)].length : ℕ) : ℤ) ∧
      p.SUM = (((CmdPacket.save 0 1 [0x20]).encode).take (5 + [(0x20 : ℤ)].length)).sum.emod 256 :=
  C1_decode_encode_round_trip 0 1 [0x20] (by norm_num) (by norm_num)
    (by simp) (by intro b hb; simp at hb; omega)

/-- Claim C2 counterexample: `encode(0x00, 0x01, [])` is
`[0x57, 0xAB, 0x00, 0x01, 0x00, 0x03]` — the checksum byte is
`(0x57 + 0xAB + 0x01) mod 256 = 0x03`, not the `0x58` the claim asserts. -/
theorem C2_counterexample :
    (CmdPacket.save 0x00 0x01 []).encode = [0x57, 0xAB, 0x00, 0x01, 0x00, 0x03] ∧
    (CmdPacket.save 0x00 0x01 []).encode ≠ [0x57, 0xAB, 0x00, 0x01, 0x00, 0x58] := by
  constructor
  · rfl
  · intro h
    have h3 : ((CmdPacket.save 0x00 0x01 []).encode).get? 5 = some 0x03 := rfl
    rw [h] at h3
    simp at h3

/-- Claim C2 (amended): for every address, command and payload of length at
most 255, `encode` produces exactly
`[0x57, 0xAB, address, command, len(payload), payload..., checksum]` with
`checksum = (0x57 + 0xAB + address + command + len(payload) + sum(payload))
mod 256`; in particular `encode(0x00, 0x01, [])` equals
`[0x57, 0xAB, 0x00, 0x01, 0x00, 0x03]`. -/
theorem C2_encode_layout (addr cmd : ℤ) (payload : List ℤ)
    (hlen : payload.length ≤ 255) :
    (CmdPacket.save addr cmd payload).encode =
      [0x57, 0xAB, addr, cmd, (payload.length : ℤ)] ++ payload ++
        [(0x57 + 0xAB + addr + cmd + (payload.length : ℤ) + payload.sum).emod 256] ∧
    (CmdPacket.save 0x00 0x01 []).encode = [0x57, 0xAB, 0x00, 0x01, 0x00, 0x03] :=
  ⟨rfl, rfl⟩

/-- Witness for C2 at `addr = 0`, `cmd = 1`, `payload = []`. -/
theorem C2_witness :
    (CmdPacket.save 0 1 []).encode =
      [0x57, 0xAB, 0, 1, (([] : List ℤ).length : ℤ)] ++ [] ++
        [(0x57 + 0xAB + 0 + 1 + (([] : List ℤ).length : ℤ) + ([] : List ℤ).sum).emod 256] ∧
    (CmdPacket.save 0x00 0x01 []).encode = [0x57, 0xAB, 0x00, 0x01, 0x00, 0x03] :=
  C2_encode_layout 0 1 [] (by simp)

/-- Claim C3 counterexample: the length-1 strict prefix `[0x57]` of the valid
frame `encode(0, 1, [])` fails with `headerNotFound` (the `"cannot find HEAD"`
branch), not with `truncated`, refuting "fails with the Truncated error" for
every strict prefix. -/
theorem C3_counterexample :
    ((CmdPacket.save 0 1 []).encode).take 1 = [(0x57 : ℤ)] ∧
    (1 : ℕ) < ((CmdPacket.save 0 1 []).encode).length ∧
    decode (((CmdPacket.save 0 1 []).encode).take 1) =
      some (Except.error DecodeError.headerNotFound) ∧
    DecodeError.headerNotFound ≠ DecodeError.truncated := by
  refine ⟨rfl, by decide, rfl, by decide⟩

/-- Claim C3 (amended): `decode` on any strict prefix of a valid encoded frame
always fails and never crashes; the failure is `truncated` whenever the prefix
keeps at least the two header bytes, and `headerNotFound` for prefixes of
length 0 or 1. -/
theorem C3_decode_strict_prefix (addr cmd : Int) (payload : List Int)
    (haddr : 0 <= addr ∧ addr <= 255) (hcmd : 0 <= cmd ∧ cmd <= 255)
    (hplen : payload.length <= 255) (hbytes : ∀ b ∈ payload, 0 <= b ∧ b <= 255)
    (n : Nat) (hn : n < ((CmdPacket.save addr cmd payload).encode).length) :
    decode (((CmdPacket.save addr cmd payload).encode).take n) =
      some (Except.error
        (if n < 2 then DecodeError.headerNotFound else DecodeError.truncated)) := by
  set S := (HEAD1 + HEAD2 + addr + cmd + (payload.length : Int) + payload.sum).emod 256 with hS
  set raw := (CmdPacket.save addr cmd payload).encode with hraw
  have hshape : raw = HEAD1 :: HEAD2 :: addr :: cmd :: (payload.length : Int) :: (payload ++ [S]) := by
    rw [hraw, encode_save_eq]
  have hlen : raw.length = payload.length + 6 := by rw [hshape]; simp
  rcases n with _ | n
  · rw [List.take_zero]
    rw [if_pos (by norm_num)]
    rfl
  rcases n with _ | k
  · rw [hshape, List.take_succ_cons, List.take_zero]
    rw [if_pos (by norm_num)]
    rfl
  -- n = k + 2
  rw [if_neg (by omega)]
  rw [hshape, List.take_succ_cons, List.take_succ_cons]
  set rest := addr :: cmd :: (payload.length : Int) :: (payload ++ [S]) with hrest
  set pre := HEAD1 :: HEAD2 :: rest.take k with hpre
  have hrestlen : rest.length = payload.length + 4 := by rw [hrest]; simp
  have hklen : k <= rest.length := by omega
  have hprelen : pre.length = k + 2 := by
    rw [hpre]
    simp [List.length_take]
    omega
  have hfind : find_head pre = some 0 := find_head_cons _
  unfold decode
  rw [hfind]
  dsimp only
  by_cases h6 : k + 2 < 6
  · rw [if_pos (by rw [hprelen]; push_cast; omega)]
  · rw [if_neg (by rw [hprelen]; push_cast; omega)]
    have hg2 : pyGet pre (((0:Nat) : Int) + 2) = some addr := by
      have h : (((0:Nat) : Int) + 2) = ((2 : Nat) : Int) := by norm_num
      rw [h, pyGet_ofNat pre 2 (by omega)]
      rw [hpre]
      show (rest.take k).get? 0 = some addr
      rw [List.get?_take (by omega), hrest]
      rfl
    have hg3 : pyGet pre (((0:Nat) : Int) + 3) = some cmd := by
      have h : (((0:Nat) : Int) + 3) = ((3 : Nat) : Int) := by norm_num
      rw [h, pyGet_ofNat pre 3 (by omega)]
      rw [hpre]
      show (rest.take k).get? 1 = some cmd
      rw [List.get?_take (by omega), hrest]
      rfl
    have hg4 : pyGet pre (((0:Nat) : Int) + 4) = some ((payload.length : Int)) := by
      have h : (((0:Nat) : Int) + 4) = ((4 : Nat) : Int) := by norm_num
      rw [h, pyGet_ofNat pre 4 (by omega)]
      rw [hpre]
      show (rest.take k).get? 2 = some ((payload.length : Int))
      rw [List.get?_take (by omega), hrest]
      rfl
    rw [hg2, hg3, hg4]
    dsimp only
    rw [if_pos (by rw [hprelen]; push_cast; omega)]

/-- Witness for C3 at `addr = 0`, `cmd = 1`, `payload = []`, prefix length 3. -/
theorem C3_witness :
    decode (((CmdPacket.save 0 1 []).encode).take 3) =
      some (Except.error
        (if 3 < 2 then DecodeError.headerNotFound else DecodeError.truncated)) :=
  C3_decode_strict_prefix 0 1 [] (by norm_num) (by norm_num) (by simp) (by simp) 3 (by decide)


/-- Claim C4 counterexample: with `surface_width = 1`, `x = 1` the scaled
coordinate is `(1 * 4096) // 1 = 4096`, outside the claimed 0..4095 range, so
the range part of the claim fails for unrestricted `x`. -/
theorem C4_counterexample :
    NanoKVM.abs_coord 1 1 = 4096 ∧ ¬ (NanoKVM.abs_coord 1 1 ≤ 4095) := by decide

/-- Claim C4 (amended): `send_mouse_absolute_data` computes
`x_abs = (x * 4096) // surface_width`, with `x_abs = 0` when
`surface_width == 0` and no division error; the scaled coordinate lies in
0..4095 whenever `surface_width == 0` or `0 <= x < surface_width` (not for
every `x`), and the concrete vector `surface_width=1920, surface_height=1080,
x=960, y=540` yields `x_abs = 2048` and `y_abs = 2048`. -/
theorem C4_abs_coord_range (width x : Int) (h : width = 0 ∨ (0 ≤ x ∧ x < width)) :
    (0 ≤ NanoKVM.abs_coord x width ∧ NanoKVM.abs_coord x width ≤ 4095) ∧
    NanoKVM.abs_coord x 0 = 0 ∧
    NanoKVM.abs_coord 960 1920 = 2048 ∧ NanoKVM.abs_coord 540 1080 = 2048 := by
  refine ⟨?_, by simp [NanoKVM.abs_coord], by decide, by decide⟩
  rcases h with h0 | ⟨hx0, hxw⟩
  · subst h0
    simp [NanoKVM.abs_coord]
  · have hw : 0 < width := by omega
    unfold NanoKVM.abs_coord
    rw [if_neg (by omega)]
    rw [Int.fdiv_eq_ediv _ (le_of_lt hw)]
    constructor
    · exact Int.ediv_nonneg (by positivity) (le_of_lt hw)
    · have hlt : x * 4096 / width < 4096 := by
        rw [Int.ediv_lt_iff_lt_mul hw]
        have := mul_lt_mul_of_pos_right hxw (show (0:Int) < 4096 by norm_num)
        linarith
      omega

/-- Claim C5: for payloads of length at least 3, info decoding fails with the
version error exactly when `payload[0] < 0x30`; the payload
`[0x30, 0x01, 0x00]` decodes to `chip_version = "V1.0"`,
`is_connected = True` and all three lock bits `False`; and any payload whose
first byte is `0x2F` fails with the version error. -/
theorem C5_info_version_gate (b0 b1 b2 : Int) (rest tail : List Int) :
    (InfoPacket.parse (b0 :: b1 :: b2 :: rest) = some (Except.error ()) ↔ b0 < 0x30) ∧
    InfoPacket.parse [0x30, 0x01, 0x00] =
      some (Except.ok { CHIP_VERSION := "V1.0", IS_CONNECTED := true,
                        NUM_LOCK := false, CAPS_LOCK := false, SCROLL_LOCK := false }) ∧
    InfoPacket.parse (0x2F :: tail) = some (Except.error ()) := by
  refine ⟨?_, rfl, ?_⟩
  · have h0 : pyGet (b0 :: b1 :: b2 :: rest) 0 = some b0 := by
      have h := pyGet_ofNat (b0 :: b1 :: b2 :: rest) 0 (by simp)
      simpa using h
    have h1 : pyGet (b0 :: b1 :: b2 :: rest) 1 = some b1 := by
      have h := pyGet_ofNat (b0 :: b1 :: b2 :: rest) 1 (by simp)
      simpa using h
    have h2 : pyGet (b0 :: b1 :: b2 :: rest) 2 = some b2 := by
      have h := pyGet_ofNat (b0 :: b1 :: b2 :: rest) 2 (by simp)
      simpa using h
    unfold InfoPacket.parse
    rw [h0]
    dsimp only
    by_cases hb : b0 < 0x30
    · rw [if_pos hb]
      simpa using hb
    · rw [if_neg hb]
      rw [h1, h2]
      dsimp only
      constructor
      · intro hcontra
        simp at hcontra
      · intro hcontra
        omega
  · have h0 : pyGet ((0x2F : Int) :: tail) 0 = some 0x2F := by
      have h := pyGet_ofNat ((0x2F : Int) :: tail) 0 (by simp)
      simpa using h
    unfold InfoPacket.parse
    rw [h0]
    dsimp only
    rw [if_pos (by norm_num)]

/-- Claim C10: `send_mouse_relative_data` reduces `x` and `y` modulo 256 into
0..255 before building the payload and passes `key` (buttons) and `scroll`
through unchanged; hence the two coordinate payload bytes are always in
0..255, while for the negative scroll `-1` the built packet contains `-1`,
an element outside 0..255, and `bytes(pkt)` fails instead of producing wire
bytes. -/
theorem C10_mouse_relative (addr key x y scroll : Int) :
    NanoKVM.send_mouse_relative_packet addr key x y scroll =
      (CmdPacket.save addr 0x05 [0x01, key, int_to_byte x, int_to_byte y, scroll]).encode ∧
    (0 ≤ int_to_byte x ∧ int_to_byte x ≤ 255) ∧
    (0 ≤ int_to_byte y ∧ int_to_byte y ≤ 255) ∧
    (-1 : Int) ∈ NanoKVM.send_mouse_relative_packet 0 0 0 0 (-1) ∧
    pyBytes (NanoKVM.send_mouse_relative_packet 0 0 0 0 (-1)) = none := by
  have hx : 0 ≤ int_to_byte x ∧ int_to_byte x ≤ 255 := by
    unfold int_to_byte
    rw [show x.emod 256 = x % 256 from rfl]
    omega
  have hy : 0 ≤ int_to_byte y ∧ int_to_byte y ≤ 255 := by
    unfold int_to_byte
    rw [show y.emod 256 = y % 256 from rfl]
    omega
  exact ⟨rfl, hx, hy, by decide, rfl⟩

/-- Witness for C4 at `surface_width = 1920`, `x = 960`. -/
theorem C4_witness :
    (0 ≤ NanoKVM.abs_coord 960 1920 ∧ NanoKVM.abs_coord 960 1920 ≤ 4095) ∧
    NanoKVM.abs_coord 960 0 = 0 ∧
    NanoKVM.abs_coord 960 1920 = 2048 ∧ NanoKVM.abs_coord 540 1080 = 2048 :=
  C4_abs_coord_range 1920 960 (Or.inr ⟨by norm_num, by norm_num⟩)

/-- Witness for C5 at the concrete payload `[0x30, 0x01, 0x00]`. -/
theorem C5_witness :
    (InfoPacket.parse ([0x30, 0x01, 0x00] : List ℤ) = some (Except.error ()) ↔
      (0x30 : ℤ) < 0x30) ∧
    InfoPacket.parse [0x30, 0x01, 0x00] =
      some (Except.ok { CHIP_VERSION := "V1.0", IS_CONNECTED := true,
                        NUM_LOCK := false, CAPS_LOCK := false, SCROLL_LOCK := false }) ∧
    InfoPacket.parse ((0x2F : ℤ) :: [0x01, 0x00]) = some (Except.error ()) :=
  C5_info_version_gate 0x30 0x01 0x00 [] [0x01, 0x00]


lemma find_head_sound (raw : List Int) (i : Nat) (h : find_head raw = some i) :
    raw.get? i = some HEAD1 ∧ raw.get? (i + 1) = some HEAD2 := by
  unfold find_head at h
  have hp := List.find?_some h
  simp only [Bool.and_eq_true, beq_iff_eq] at hp
  exact hp

lemma find_head_first (raw : List Int) (i : Nat) (h : find_head raw = some i) :
    ∀ j, j < i → ¬(raw.get? j = some HEAD1 ∧ raw.get? (j + 1) = some HEAD2) := by
  unfold find_head at h
  rw [List.find?_eq_some] at h
  obtain ⟨hp, as, bs, hdec, hall⟩ := h
  rintro j hj ⟨hj1, hj2⟩
  have hjlen : j + 1 < raw.length := by
    obtain ⟨hlt, -⟩ := List.get?_eq_some.mp hj2
    omega
  have hjmem : j ∈ List.range (raw.length - 1) := List.mem_range.mpr (by omega)
  rw [hdec] at hjmem
  rcases List.mem_append.mp hjmem with hjas | hjtail
  · have := hall j hjas
    simp only [Bool.not_eq_true', Bool.and_eq_false_iff] at this
    rcases this with h1 | h2
    · rw [beq_eq_false_iff_ne] at h1
      exact h1 hj1
    · rw [beq_eq_false_iff_ne] at h2
      exact h2 hj2
  · have hpw := List.pairwise_lt_range (raw.length - 1)
    rw [hdec] at hpw
    obtain ⟨-, hpw2, -⟩ := List.pairwise_append.mp hpw
    rcases List.mem_cons.mp hjtail with rfl | hjbs
    · omega
    · have := (List.pairwise_cons.mp hpw2).1 j hjbs
      omega

/-- The conditions `decode` checks at a candidate header index before it
reports success: the header pair at `i`, the minimum length, the
length-consistency bound for the declared payload length, and the matching
checksum. -/
def frame_ok_at (raw : List Int) (i : Nat) : Prop :=
  raw.get? i = some HEAD1 ∧ raw.get? (i + 1) = some HEAD2 ∧
  6 ≤ (raw.length : Int) - (i : Int) ∧
  ∃ L, pyGet raw ((i : Int) + 4) = some L ∧
    (i : Int) + 5 + L + 1 ≤ (raw.length : Int) ∧
    ∃ s, pyGet raw ((i : Int) + 5 + L) = some s ∧
      (pySlice raw (i : Int) ((i : Int) + 5 + L)).sum.emod 256 = s

lemma decode_ok_inv (raw : List Int) (p : CmdPacket)
    (h : decode raw = some (Except.ok p)) :
    ∃ i, find_head raw = some i ∧ frame_ok_at raw i := by
  unfold decode at h
  split at h
  · simp at h
  · rename_i hi heq
    refine ⟨hi, heq, ?_⟩
    have hhead := find_head_sound raw hi heq
    split at h
    · simp at h
    · rename_i h6
      split at h
      · rename_i a b c ha hb hc
        split at h
        · simp at h
        · rename_i hc2
          split at h
          · simp at h
          · rename_i s hs
            split at h
            · simp at h
            · rename_i hsum
              push_neg at hsum
              exact ⟨hhead.1, hhead.2, by omega, c, hc, by omega, s, hs, hsum⟩
      · simp at h

/-- Claim C6: for every input list, `decode` returns a result — a success or a
typed failure — and never raises an exception (`none` never occurs: every
unguarded index read happens only after the length checks that make it safe,
and the guarded read maps its `IndexError` to a length failure).  The
embedding of `decode` is a pure function that only reads `raw`, so the input
list is left unchanged by construction. -/
theorem C6_decode_total (raw : List ℤ) : (decode raw).isSome = true := by
  unfold decode
  split
  · rfl
  · rename_i hi heq
    split
    · rfl
    · rename_i h6
      split
      · split
        · rfl
        · split
          · rfl
          · split <;> rfl
      · rename_i a b c habc
        exfalso
        have hlen : hi + 6 ≤ raw.length := by omega
        have e2 : ((hi : ℤ) + 2) = (((hi + 2 : ℕ)) : ℤ) := by push_cast; ring
        have e3 : ((hi : ℤ) + 3) = (((hi + 3 : ℕ)) : ℤ) := by push_cast; ring
        have e4 : ((hi : ℤ) + 4) = (((hi + 4 : ℕ)) : ℤ) := by push_cast; ring
        have hv2 := List.get?_eq_get (show hi + 2 < raw.length by omega)
        have hv3 := List.get?_eq_get (show hi + 3 < raw.length by omega)
        have hv4 := List.get?_eq_get (show hi + 4 < raw.length by omega)
        exact habc (raw.get ⟨hi + 2, by omega⟩) (raw.get ⟨hi + 3, by omega⟩)
          (raw.get ⟨hi + 4, by omega⟩)
          (by rw [e2, pyGet_ofNat raw (hi + 2) (by omega)]; exact hv2)
          (by rw [e3, pyGet_ofNat raw (hi + 3) (by omega)]; exact hv3)
          (by rw [e4, pyGet_ofNat raw (hi + 4) (by omega)]; exact hv4)

/-- Claim C7 is violated by the code: on a response that fails frame decoding
(here the empty read `[]`, whose decode failure is `headerNotFound`),
`get_info` ignores `decode`'s return code, keeps the zero-state packet with
empty `DATA`, and `InfoPacket([])` then raises an uncaught `IndexError`
(`none`) — the framing error itself is never propagated to the caller. -/
theorem C7_framing_error_not_propagated :
    decode ([] : List ℤ) = some (Except.error DecodeError.headerNotFound) ∧
    CmdPacket.fromRaw ([] : List ℤ) = some CmdPacket.zero ∧
    NanoKVM.get_info_response ([] : List ℤ) = none :=
  ⟨rfl, rfl, rfl⟩

/-- Claim C8 is violated by the code: the `_write_lock` created in
`NanoKVM.__init__` is never acquired — the transcribed action traces of
`get_info` and of every `send_*` operation contain no lock acquisition, so no
operation holds the mutual-exclusion lock around its packet write (or
write+read) sequence. -/
theorem C8_write_lock_never_acquired :
    NanoKVM.Action.acquireLock ∉ NanoKVM.get_info_actions ∧
    NanoKVM.Action.acquireLock ∉ NanoKVM.send_hid_report_actions ∧
    NanoKVM.Action.acquireLock ∉ NanoKVM.send_mouse_relative_actions ∧
    NanoKVM.Action.acquireLock ∉ NanoKVM.send_mouse_absolute_actions := by
  decide

/-- Claim C9: the header scan locks onto the first occurrence of the pair
`0x57, 0xAB` only — `find_head` returns the first index carrying the pair,
decode succeeds only when the frame checks all hold at that first occurrence,
and on the concrete input `[0x57, 0xAB, 0, 0, 0, 0] ++ encode(0, 1, [])`
(leading garbage that itself contains the sync pair, followed by a complete
valid frame) decode fails with a checksum mismatch at the first pair instead
of resynchronizing on the later frame. -/
theorem C9_first_head_lock :
    (∀ raw i, find_head raw = some i →
      (raw.get? i = some HEAD1 ∧ raw.get? (i + 1) = some HEAD2) ∧
      ∀ j, j < i → ¬(raw.get? j = some HEAD1 ∧ raw.get? (j + 1) = some HEAD2)) ∧
    (∀ raw p, decode raw = some (Except.ok p) →
      ∃ i, find_head raw = some i ∧ frame_ok_at raw i) ∧
    find_head (([0x57, 0xAB, 0x00, 0x00, 0x00, 0x00] : List ℤ) ++
      (CmdPacket.save 0 1 []).encode) = some 0 ∧
    decode (([0x57, 0xAB, 0x00, 0x00, 0x00, 0x00] : List ℤ) ++
      (CmdPacket.save 0 1 []).encode) = some (Except.error DecodeError.checksumMismatch) ∧
    decode ((CmdPacket.save 0 1 []).encode) = some (Except.ok (CmdPacket.save 0 1 [])) :=
  ⟨fun raw i h => ⟨find_head_sound raw i h, find_head_first raw i h⟩,
   decode_ok_inv, rfl, rfl, rfl⟩

/-- Witness for C9: the hypothesis-bearing components applied at the concrete
frame `encode(0, 1, [])` and its header index 0. -/
theorem C9_witness :
    ((([(0x57 : ℤ), 0xAB, 0x00, 0x01, 0x00, 0x03]).get? 0 = some HEAD1 ∧
      ([(0x57 : ℤ), 0xAB, 0x00, 0x01, 0x00, 0x03]).get? 1 = some HEAD2) ∧
      ∀ j, j < 0 → ¬(([(0x57 : ℤ), 0xAB, 0x00, 0x01, 0x00, 0x03]).get? j = some HEAD1 ∧
        ([(0x57 : ℤ), 0xAB, 0x00, 0x01, 0x00, 0x03]).get? (j + 1) = some HEAD2)) ∧
    ∃ i, find_head ((CmdPacket.save 0 1 []).encode) = some i ∧
      frame_ok_at ((CmdPacket.save 0 1 []).encode) i :=
  ⟨C9_first_head_lock.1 [0x57, 0xAB, 0x00, 0x01, 0x00, 0x03] 0 rfl,
   C9_first_head_lock.2.1 ((CmdPacket.save 0 1 []).encode) (CmdPacket.save 0 1 []) rfl⟩


end NanoKVMUSB
